import Mathlib

/-!
Verification of the attendance-tracker script `src/app.py`.

The script stores two tables in a spreadsheet: a roster (`Students` sheet,
columns ID and Name) and an append-only scan log (`AttendanceLog` sheet,
columns Timestamp, Checkpoint, ID, Name, Status).  Rows are read back with
`get_all_records`, shaped with pandas, and a per-student latest-status view is
derived from the log.

The embedding below models each data-shaping function of the script over
explicit Lean lists.  Spreadsheet reads that can raise are modelled by an
`Except String` argument (the `error` case standing for a raised exception
caught by the `try/except` of the source), appends that can raise by a
Boolean success flag, and each `st.error` call by a Boolean component of the
result.  Timestamps are the strings produced by
`pd.Timestamp.now().strftime`; pandas compares such object columns with
Python string comparison, i.e. lexicographically by code point, which
`lexLe` below implements over `String.data`.
-/

/-- Lexicographic comparison of character lists by code point: the order
Python uses for `str` values, hence the order `sort_values` applies to the
string-valued Timestamp column. -/
def lexLe : List Char → List Char → Bool
  | [], _ => true
  | _ :: _, [] => false
  | a :: as, b :: bs => if a < b then true else if b < a then false else lexLe as bs

theorem char_eq_of_not_lt {a b : Char} (h1 : ¬ a < b) (h2 : ¬ b < a) : a = b := by
  rcases lt_trichotomy a b with h | h | h
  · exact absurd h h1
  · exact h
  · exact absurd h h2

theorem lexLe_refl : ∀ x : List Char, lexLe x x = true
  | [] => rfl
  | a :: as => by simp [lexLe, lt_irrefl, lexLe_refl as]

theorem lexLe_total : ∀ x y : List Char, lexLe x y = true ∨ lexLe y x = true
  | [], _ => Or.inl rfl
  | _ :: _, [] => Or.inr rfl
  | a :: as, b :: bs => by
    rcases lt_trichotomy a b with h | h | h
    · exact Or.inl (by simp [lexLe, h])
    · subst h
      rcases lexLe_total as bs with ih | ih
      · exact Or.inl (by simp [lexLe, lt_irrefl, ih])
      · exact Or.inr (by simp [lexLe, lt_irrefl, ih])
    · exact Or.inr (by simp [lexLe, h])

theorem lexLe_trans :
    ∀ x y z : List Char, lexLe x y = true → lexLe y z = true → lexLe x z = true
  | [], _, _, _, _ => rfl
  | _ :: _, [], _, hxy, _ => by simp [lexLe] at hxy
  | _ :: _, _ :: _, [], _, hyz => by simp [lexLe] at hyz
  | a :: as, b :: bs, c :: cs, hxy, hyz => by
    by_cases hab : a < b
    · by_cases hbc : b < c
      · simp [lexLe, lt_trans hab hbc]
      · by_cases hcb : c < b
        · simp [lexLe, hbc, hcb] at hyz
        · have hbce : b = c := char_eq_of_not_lt hbc hcb
          subst hbce
          simp [lexLe, hab]
    · by_cases hba : b < a
      · simp [lexLe, hab, hba] at hxy
      · have habe : a = b := char_eq_of_not_lt hab hba
        subst habe
        by_cases hac : a < c
        · simp [lexLe, hac]
        · by_cases hca : c < a
          · simp [lexLe, hac, hca] at hyz
          · have hace : a = c := char_eq_of_not_lt hac hca
            subst hace
            simp [lexLe, lt_irrefl] at hxy hyz ⊢
            exact lexLe_trans as bs cs hxy hyz

theorem lexLe_antisymm :
    ∀ x y : List Char, lexLe x y = true → lexLe y x = true → x = y
  | [], [], _, _ => rfl
  | [], _ :: _, _, hyx => by simp [lexLe] at hyx
  | _ :: _, [], hxy, _ => by simp [lexLe] at hxy
  | a :: as, b :: bs, hxy, hyx => by
    by_cases hab : a < b
    · simp [lexLe, hab, lt_asymm hab] at hyx
    · by_cases hba : b < a
      · simp [lexLe, hab, hba] at hxy
      · have habe : a = b := char_eq_of_not_lt hab hba
        subst habe
        simp [lexLe, lt_irrefl] at hxy hyx
        rw [lexLe_antisymm as bs hxy hyx]

/-- Python string `<=`, the comparison pandas uses on the Timestamp column. -/
def pyStrLe (s t : String) : Bool := lexLe s.data t.data

theorem pyStrLe_refl (s : String) : pyStrLe s s = true := lexLe_refl s.data

theorem pyStrLe_total (s t : String) : pyStrLe s t = true ∨ pyStrLe t s = true :=
  lexLe_total s.data t.data

theorem pyStrLe_trans {s t u : String} (h1 : pyStrLe s t = true)
    (h2 : pyStrLe t u = true) : pyStrLe s u = true :=
  lexLe_trans s.data t.data u.data h1 h2

theorem pyStrLe_antisymm {s t : String} (h1 : pyStrLe s t = true)
    (h2 : pyStrLe t s = true) : s = t := by
  have hd : s.data = t.data := lexLe_antisymm s.data t.data h1 h2
  cases s
  cases t
  exact congrArg String.mk hd

/-- Strict version: `s` compares strictly below `t` as a Python string. -/
def pyStrLt (s t : String) : Prop := pyStrLe t s = false

theorem pyStrLe_of_not_ge {s t : String} (h : pyStrLe t s = false) :
    pyStrLe s t = true := by
  rcases pyStrLe_total s t with h1 | h1
  · exact h1
  · rw [h1] at h
    cases h

/-- One row of the `AttendanceLog` sheet, as returned by `get_all_records`:
columns Timestamp, Checkpoint, ID, Name, Status. -/
structure LogRow where
  timestamp : String
  checkpoint : String
  id : String
  name : String
  status : String
deriving Repr, DecidableEq

/-- One row of the roster produced by `load_master_students`: columns ID and
Name, both strings. -/
structure RosterRow where
  id : String
  name : String
deriving Repr, DecidableEq

/-- One row of the derived status frame.  The main path of
`get_current_attendance_status` builds a frame with ID, Name and Status
columns; the early-return and error paths build one with only ID and Status,
modelled by `name := none`. -/
structure StatusRow where
  id : String
  name : Option String
  status : String
deriving Repr, DecidableEq

/-- Descending-timestamp order used by
`sort_values(by='Timestamp', ascending=False)`. -/
def tsDescRel (a b : LogRow) : Prop := pyStrLe b.timestamp a.timestamp = true

instance : DecidableRel tsDescRel := fun a b =>
  inferInstanceAs (Decidable (pyStrLe b.timestamp a.timestamp = true))

instance : IsTotal LogRow tsDescRel :=
  ⟨fun a b => (pyStrLe_total b.timestamp a.timestamp).elim Or.inl Or.inr⟩

instance : IsTrans LogRow tsDescRel :=
  ⟨fun _ _ _ h1 h2 => pyStrLe_trans h2 h1⟩

/-- Model of `checkpoint_log.sort_values(by='Timestamp', ascending=False)`:
sort the rows by Timestamp, newest first.  pandas' default sort kind is an
unstable quicksort, so the order of rows with equal timestamps is not a
program guarantee; this model uses a stable insertion sort, and every
theorem whose conclusion could depend on tie order therefore carries a
distinct-timestamp hypothesis making it independent of the sort
implementation. -/
def sortByTimestampDesc (rows : List LogRow) : List LogRow :=
  List.insertionSort tsDescRel rows

/-- Worker for `dedupByKey`, carrying the list of key values already seen. -/
def dedupByKeyGo {α : Type} (key : α → String) (seen : List String) :
    List α → List α
  | [] => []
  | r :: rs =>
    if seen.contains (key r) then dedupByKeyGo key seen rs
    else r :: dedupByKeyGo key (key r :: seen) rs

/-- pandas `drop_duplicates(subset=[k])` with `keep='first'` (the default):
keep the first row for each key value, preserving order. -/
def dedupByKey {α : Type} (key : α → String) (rows : List α) : List α :=
  dedupByKeyGo key [] rows

/-- Model of `drop_duplicates(subset=['ID'])` on the log (line 126). -/
def dropDupById (rows : List LogRow) : List LogRow :=
  dedupByKey (fun r => r.id) rows

/-- The group-by-key-take-latest transformation of line 126 of `app.py`:
sort by Timestamp descending, then keep the first row for each ID. -/
def latestStatusTransform (rows : List LogRow) : List LogRow :=
  dropDupById (sortByTimestampDesc rows)

/-- The status frame built by the early returns of
`get_current_attendance_status` (lines 106 and 137): every roster ID paired
with Status `'Absent'`, no Name column. -/
def absentFrame (master : List RosterRow) : List StatusRow :=
  master.map fun s => { id := s.id, name := none, status := "Absent" }

/-- Model of lines 113-114:
`status_df = master_df[['ID', 'Name']].copy(); status_df['Status'] = 'Absent'`. -/
def initStatusFrame (master : List RosterRow) : List StatusRow :=
  master.map fun s => { id := s.id, name := some s.name, status := "Absent" }

/-- One iteration of the update loop (lines 129-131): when the row's Status
is `'Present'` or `'Absent'`, set the Status of every status-frame row whose
ID matches. -/
def applyRow (status_df : List StatusRow) (row : LogRow) : List StatusRow :=
  if row.status = "Present" ∨ row.status = "Absent" then
    status_df.map fun s => if s.id = row.id then { s with status := row.status } else s
  else status_df

/-- Model of `get_current_attendance_status` (lines 100-137).  The first argument is
the result of reading the `AttendanceLog` worksheet (`error` = the read
raised, handled by the `except` branch).  The Boolean result records whether
`st.error` was called. -/
def get_current_attendance_status (res : Except String (List LogRow))
    (current_checkpoint : String) (master_df : List RosterRow) :
    List StatusRow × Bool :=
  if current_checkpoint = "" ∨ master_df = [] then (absentFrame master_df, false)
  else
    match res with
    | .error _ => (absentFrame master_df, true)
    | .ok df_log =>
      let status_df := initStatusFrame master_df
      if df_log = [] then (status_df, false)
      else
        let checkpoint_log := df_log.filter fun r => r.checkpoint == current_checkpoint
        if checkpoint_log = [] then (status_df, false)
        else
          let latest_status := latestStatusTransform checkpoint_log
          (latest_status.foldl applyRow status_df, false)

/-- Status of ID `i` in a derived status frame: the Status of the first row
whose ID is `i` (pandas `df[df['ID'] == i]['Status'].iloc[0]`). -/
def lookupStatus (view : List StatusRow) (i : String) : Option String :=
  (view.find? fun s => s.id == i).map fun s => s.status

/-- A spreadsheet cell as returned by `get_all_records`: text, or a number
for numeric-looking cells.  `astype(str)` turns both into strings. -/
inductive SheetCell
  | text (v : String)
  | num (v : Int)
deriving Repr, DecidableEq

/-- Python `str()` applied to a cell value, the effect of `astype(str)`. -/
def SheetCell.toStr : SheetCell → String
  | .text v => v
  | .num v => toString v

/-- A raw row of the `Students` sheet with `ID` and `Name` columns. -/
structure RawStudent where
  id : SheetCell
  name : SheetCell
deriving Repr, DecidableEq

/-- Model of `load_master_students` (lines 82-97).  The argument is the result of
reading the `Students` worksheet: `error` = the read raised (handled by the
`except` branch), `ok none` = the sheet lacks the `ID` or `Name` column,
`ok (some records)` = a well-formed read.  The source selects the two
columns, coerces them to strings with `astype(str)` and drops duplicate IDs
keeping the first occurrence.  The Boolean result records whether `st.error`
was called. -/
def load_master_students (res : Except String (Option (List RawStudent))) :
    List RosterRow × Bool :=
  match res with
  | .error _ => ([], true)
  | .ok none => ([], true)
  | .ok (some records) =>
    let strRows := records.map fun w => RosterRow.mk w.id.toStr w.name.toStr
    (dedupByKey (fun s => s.id) strRows, false)

/-- Model of `get_gspread_client` (lines 63-78): `none` plus an error message when
secrets are missing or connecting raises; otherwise the spreadsheet handle
(modelled as `Unit`). -/
def get_gspread_client (secretsPresent : Bool)
    (connect : Except String Unit) : Option Unit × Bool :=
  if !secretsPresent then (none, true)
  else
    match connect with
    | .error _ => (none, true)
    | .ok _ => (some (), false)

/-- Model of `get_active_checkpoint_name` (lines 141-162): the Checkpoint field of
the newest log row whose ID is `'CONFIG_STATE'`, the empty string if there
is none, and — through a bare `except` that shows no message — the empty
string when the read raises.  The Boolean records whether `st.error` was
called (it never is). -/
def get_active_checkpoint_name (res : Except String (List LogRow)) :
    String × Bool :=
  match res with
  | .error _ => ("", false)
  | .ok df_log =>
    let config_row := df_log.filter fun r => r.id == "CONFIG_STATE"
    if config_row = [] then ("", false)
    else
      ((((sortByTimestampDesc config_row).head?).map fun r => r.checkpoint).getD "",
        false)

/-- Model of `set_active_checkpoint_name` (lines 164-181): append the row
`[timestamp, checkpoint_name, 'CONFIG_STATE', 'N/A', 'N/A']`.  `appendOk`
models whether the append raises; the result is the new log, the returned
Boolean, and whether `st.error` was called. -/
def set_active_checkpoint_name (appendOk : Bool) (log : List LogRow)
    (timestamp checkpoint_name : String) : List LogRow × Bool × Bool :=
  if appendOk then
    (log ++ [{ timestamp := timestamp, checkpoint := checkpoint_name,
               id := "CONFIG_STATE", name := "N/A", status := "N/A" }],
      true, false)
  else (log, false, true)

/-- Result of `save_attendance_entry`: the log after the call, the returned
success flag and name, and whether `st.error` was called. -/
structure SaveResult where
  log : List LogRow
  success : Bool
  name : String
  errorShown : Bool
deriving Repr, DecidableEq

/-- Model of `save_attendance_entry` (lines 184-202): look the student's name up in
`st.session_state.id_to_name` (default `'Unknown Student'`), append the row
`[timestamp, checkpoint, student_id, name, status]`, and return
`(True, name)`; if the append raises, show an error and return
`(False, 'Unknown Student')`. -/
def save_attendance_entry (appendOk : Bool) (log : List LogRow)
    (id_to_name : List (String × String)) (current_checkpoint : String)
    (timestamp student_id status : String) : SaveResult :=
  if appendOk then
    let name := ((id_to_name.find? fun p => p.1 == student_id).map fun p => p.2).getD
      "Unknown Student"
    { log := log ++ [{ timestamp := timestamp, checkpoint := current_checkpoint,
                       id := student_id, name := name, status := status }],
      success := true, name := name, errorShown := false }
  else
    { log := log, success := false, name := "Unknown Student", errorShown := true }

/-- Python `str.strip()`: drop leading and trailing whitespace, the
normalisation the check-in paths apply to decoded or typed IDs. -/
def pyStrip (s : String) : String :=
  String.mk (((s.data.dropWhile Char.isWhitespace).reverse.dropWhile
    Char.isWhitespace).reverse)

/-- What a check-in path decides to do with a scanned/entered ID. -/
inductive CheckInAction
  | callSave (status : String)
  | warnAlreadyCheckedIn
  | errorInvalidId
deriving Repr, DecidableEq

/-- The check-in decision of `process_uploaded_image` (lines 249-265): strip
the decoded ID; if it is not in the roster show an invalid-ID error; else
read its current status from the frame (first matching row, `'Absent'` if
none) and either call `save_attendance_entry(..., 'Present')` or warn that
the student is already checked in. -/
def process_uploaded_image_decision (master_df : List RosterRow)
    (status_df : List StatusRow) (decoded : String) : CheckInAction :=
  let student_id := pyStrip decoded
  if master_df.any fun s => s.id == student_id then
    let current_status :=
      (((status_df.filter fun s => s.id == student_id).head?).map
        fun s => s.status).getD "Absent"
    if current_status ≠ "Present" then .callSave "Present"
    else .warnAlreadyCheckedIn
  else .errorInvalidId

/-- The check-in decision of the camera-scan buffer path in `main`
(lines 403-425); the buffer already holds the stripped decoded ID. -/
def scan_buffer_decision (master_df : List RosterRow)
    (status_df : List StatusRow) (scanned_id : String) : CheckInAction :=
  if master_df.any fun s => s.id == scanned_id then
    let current_status :=
      (((status_df.filter fun s => s.id == scanned_id).head?).map
        fun s => s.status).getD "Absent"
    if current_status ≠ "Present" then .callSave "Present"
    else .warnAlreadyCheckedIn
  else .errorInvalidId

/-- The check-in decision of the manual-entry path in `main`
(lines 448-470): strip the typed text, then proceed as the other paths. -/
def manual_entry_decision (master_df : List RosterRow)
    (status_df : List StatusRow) (typed : String) : CheckInAction :=
  let student_id := pyStrip typed
  if master_df.any fun s => s.id == student_id then
    let current_status :=
      (((status_df.filter fun s => s.id == student_id).head?).map
        fun s => s.status).getD "Absent"
    if current_status ≠ "Present" then .callSave "Present"
    else .warnAlreadyCheckedIn
  else .errorInvalidId

/-- The log rows that mention student `i` at checkpoint `cp`. -/
def matchingRows (log : List LogRow) (cp i : String) : List LogRow :=
  log.filter fun r => r.checkpoint == cp && r.id == i

/-- A row of maximal Timestamp (the leftmost one if several tie). -/
def maxTsRow : List LogRow → Option LogRow
  | [] => none
  | r :: rs =>
    match maxTsRow rs with
    | none => some r
    | some m => if pyStrLe m.timestamp r.timestamp then some r else some m

/-- Modelled from the spec: "for each student ID, the Status field of the
log row with that ID and Checkpoint having the maximum Timestamp, defaulting
to 'Absent' if no such row exists". -/
def specDerivedStatus (log : List LogRow) (cp i : String) : String :=
  match maxTsRow (matchingRows log cp i) with
  | none => "Absent"
  | some r => r.status

/-- The sanitisation the update loop applies (line 130): a latest Status
other than `'Present'` or `'Absent'` is ignored, leaving `'Absent'`. -/
def sanitizeStatus (st : String) : String :=
  if st = "Present" ∨ st = "Absent" then st else "Absent"

/-- Closed form of the status the code derives for ID `i`: the first row
with ID `i` in the checkpoint-filtered, descending-sorted log, its Status
sanitised; `'Absent'` when there is no such row. -/
def codeStatus (log : List LogRow) (cp i : String) : String :=
  match (sortByTimestampDesc (log.filter fun r => r.checkpoint == cp)).find?
      (fun r => r.id == i) with
  | none => "Absent"
  | some r => sanitizeStatus r.status

theorem dedupByKeyGo_sublist {α : Type} (key : α → String) :
    ∀ (l : List α) (seen : List String), List.Sublist (dedupByKeyGo key seen l) l
  | [], _ => List.Sublist.refl _
  | r :: rs, seen => by
    rw [dedupByKeyGo]
    split
    · exact (dedupByKeyGo_sublist key rs seen).cons r
    · exact (dedupByKeyGo_sublist key rs _).cons₂ r

theorem dedupByKeyGo_keys {α : Type} (key : α → String) :
    ∀ (l : List α) (seen : List String),
      (∀ x ∈ dedupByKeyGo key seen l, key x ∉ seen) ∧
        List.Pairwise (fun a b => key a ≠ key b) (dedupByKeyGo key seen l)
  | [], seen => by simp [dedupByKeyGo]
  | r :: rs, seen => by
    by_cases h : key r ∈ seen
    · have hc : seen.contains (key r) = true := by simpa using h
      rw [dedupByKeyGo, if_pos hc]
      exact dedupByKeyGo_keys key rs seen
    · have hc : ¬ seen.contains (key r) = true := by simpa using h
      rw [dedupByKeyGo, if_neg hc]
      obtain ⟨ih1, ih2⟩ := dedupByKeyGo_keys key rs (key r :: seen)
      refine ⟨?_, ?_⟩
      · intro x hx
        rcases List.mem_cons.mp hx with rfl | hx2
        · exact h
        · intro hxs
          exact ih1 x hx2 (List.mem_cons_of_mem _ hxs)
      · refine List.pairwise_cons.mpr ⟨?_, ih2⟩
        intro b hb hkb
        exact ih1 b hb (hkb ▸ List.mem_cons_self _ _)

theorem dedupByKeyGo_find {α : Type} (key : α → String) :
    ∀ (l : List α) (seen : List String) (i : String), i ∉ seen →
      (dedupByKeyGo key seen l).find? (fun x => key x == i) =
        l.find? (fun x => key x == i)
  | [], _, _, _ => rfl
  | r :: rs, seen, i, hi => by
    by_cases h : key r ∈ seen
    · have hc : seen.contains (key r) = true := by simpa using h
      rw [dedupByKeyGo, if_pos hc]
      have hne : ¬ key r = i := fun he => hi (he ▸ h)
      rw [List.find?_cons_of_neg _ (by simp [hne])]
      exact dedupByKeyGo_find key rs seen i hi
    · have hc : ¬ seen.contains (key r) = true := by simpa using h
      rw [dedupByKeyGo, if_neg hc]
      by_cases he : key r = i
      · rw [List.find?_cons_of_pos _ (by simp [he]),
          List.find?_cons_of_pos _ (by simp [he])]
      · rw [List.find?_cons_of_neg _ (by simp [he]),
          List.find?_cons_of_neg _ (by simp [he])]
        refine dedupByKeyGo_find key rs (key r :: seen) i ?_
        intro hmem
        rcases List.mem_cons.mp hmem with h1 | h1
        · exact he h1.symm
        · exact hi h1

theorem dedupByKeyGo_eq_self {α : Type} (key : α → String) :
    ∀ (l : List α) (seen : List String),
      List.Pairwise (fun a b => key a ≠ key b) l → (∀ x ∈ l, key x ∉ seen) →
      dedupByKeyGo key seen l = l
  | [], _, _, _ => rfl
  | r :: rs, seen, hp, hs => by
    have hc : ¬ seen.contains (key r) = true := by
      simpa using hs r (List.mem_cons_self r rs)
    rw [dedupByKeyGo, if_neg hc]
    obtain ⟨h1, h2⟩ := List.pairwise_cons.mp hp
    have hseen : ∀ x ∈ rs, key x ∉ key r :: seen := by
      intro x hx hmem
      rcases List.mem_cons.mp hmem with hk | hk
      · exact h1 x hx hk.symm
      · exact hs x (List.mem_cons_of_mem r hx) hk
    rw [dedupByKeyGo_eq_self key rs (key r :: seen) h2 hseen]

theorem lookupStatus_applyRow (st : List StatusRow) (row : LogRow) (i : String) :
    lookupStatus (applyRow st row) i =
      if row.status = "Present" ∨ row.status = "Absent" then
        (if i = row.id then (lookupStatus st i).map fun _ => row.status
         else lookupStatus st i)
      else lookupStatus st i := by
  by_cases hg : row.status = "Present" ∨ row.status = "Absent"
  · rw [applyRow, if_pos hg, if_pos hg]
    unfold lookupStatus
    rw [List.find?_map]
    have hpred : ((fun s : StatusRow => s.id == i) ∘
        fun s => if s.id = row.id then { s with status := row.status } else s) =
        fun s : StatusRow => s.id == i := by
      funext s
      by_cases h : s.id = row.id <;> simp [Function.comp, h]
    rw [hpred]
    cases hf : st.find? (fun s => s.id == i) with
    | none => by_cases hi : i = row.id <;> simp [hi]
    | some s0 =>
      have h0 : s0.id = i := by simpa using List.find?_some hf
      by_cases hi : i = row.id
      · have : s0.id = row.id := h0.trans hi
        simp [this, hi]
      · have : ¬ s0.id = row.id := by rw [h0]; exact hi
        simp [this, hi]
  · rw [applyRow, if_neg hg, if_neg hg]

theorem lookupStatus_foldl_applyRow :
    ∀ (latest : List LogRow) (st : List StatusRow) (i : String),
      List.Pairwise (fun a b : LogRow => a.id ≠ b.id) latest →
      lookupStatus (latest.foldl applyRow st) i =
        match latest.find? (fun r => r.id == i) with
        | none => lookupStatus st i
        | some r =>
          if r.status = "Present" ∨ r.status = "Absent" then
            (lookupStatus st i).map fun _ => r.status
          else lookupStatus st i
  | [], _, _, _ => rfl
  | r :: rest, st, i, hp => by
    obtain ⟨h1, h2⟩ := List.pairwise_cons.mp hp
    rw [List.foldl_cons, lookupStatus_foldl_applyRow rest (applyRow st r) i h2]
    by_cases hi : r.id = i
    · rw [List.find?_cons_of_pos _ (by simp [hi])]
      have hrest : rest.find? (fun x => x.id == i) = none := by
        rw [List.find?_eq_none]
        intro x hx
        simp only [beq_iff_eq]
        intro he
        exact (h1 x hx) (hi.trans he.symm)
      rw [hrest]
      dsimp only
      rw [lookupStatus_applyRow]
      by_cases hg : r.status = "Present" ∨ r.status = "Absent"
      · rw [if_pos hg, if_pos hi.symm, if_pos hg]
      · rw [if_neg hg, if_neg hg]
    · rw [List.find?_cons_of_neg _ (by simp [hi])]
      have hD1 : lookupStatus (applyRow st r) i = lookupStatus st i := by
        rw [lookupStatus_applyRow]
        by_cases hg : r.status = "Present" ∨ r.status = "Absent"
        · rw [if_pos hg, if_neg (fun he => hi he.symm)]
        · rw [if_neg hg]
      cases hrf : rest.find? (fun x => x.id == i) with
      | none => rw [hD1]
      | some r2 => rw [hD1]

theorem lookupStatus_initStatusFrame :
    ∀ (master : List RosterRow) (i : String), (∃ s ∈ master, s.id = i) →
      lookupStatus (initStatusFrame master) i = some "Absent"
  | [], i, h => by simp at h
  | s :: rest, i, h => by
    by_cases hs : s.id = i
    · unfold lookupStatus initStatusFrame
      rw [List.map_cons, List.find?_cons_of_pos _ (by simpa using hs)]
      rfl
    · have h2 : ∃ t ∈ rest, t.id = i := by
        rcases h with ⟨t, ht, hti⟩
        rcases List.mem_cons.mp ht with rfl | ht2
        · exact absurd hti hs
        · exact ⟨t, ht2, hti⟩
      have ih := lookupStatus_initStatusFrame rest i h2
      unfold lookupStatus initStatusFrame at ih ⊢
      rw [List.map_cons, List.find?_cons_of_neg _ (by simpa using hs)]
      exact ih

theorem lookupStatus_absentFrame :
    ∀ (master : List RosterRow) (i : String), (∃ s ∈ master, s.id = i) →
      lookupStatus (absentFrame master) i = some "Absent"
  | [], i, h => by simp at h
  | s :: rest, i, h => by
    by_cases hs : s.id = i
    · unfold lookupStatus absentFrame
      rw [List.map_cons, List.find?_cons_of_pos _ (by simpa using hs)]
      rfl
    · have h2 : ∃ t ∈ rest, t.id = i := by
        rcases h with ⟨t, ht, hti⟩
        rcases List.mem_cons.mp ht with rfl | ht2
        · exact absurd hti hs
        · exact ⟨t, ht2, hti⟩
      have ih := lookupStatus_absentFrame rest i h2
      unfold lookupStatus absentFrame at ih ⊢
      rw [List.map_cons, List.find?_cons_of_neg _ (by simpa using hs)]
      exact ih

theorem find_sorted_max :
    ∀ (l : List LogRow), List.Sorted tsDescRel l →
      ∀ (i : String) (r : LogRow), l.find? (fun x => x.id == i) = some r →
      ∀ x ∈ l, x.id = i → pyStrLe x.timestamp r.timestamp = true
  | [], _, i, r, hf => by simp at hf
  | a :: l, hs, i, r, hf => by
    obtain ⟨ha, hl⟩ := List.sorted_cons.mp hs
    by_cases hai : a.id = i
    · rw [List.find?_cons_of_pos _ (by simpa using hai)] at hf
      injection hf with hf
      subst hf
      intro x hx _
      rcases List.mem_cons.mp hx with rfl | hx2
      · exact pyStrLe_refl _
      · exact ha x hx2
    · rw [List.find?_cons_of_neg _ (by simpa using hai)] at hf
      intro x hx hxi
      rcases List.mem_cons.mp hx with rfl | hx2
      · exact absurd hxi hai
      · exact find_sorted_max l hl i r hf x hx2 hxi

theorem maxTsRow_cons_ne_none (r : LogRow) (rs : List LogRow) :
    maxTsRow (r :: rs) ≠ none := by
  rw [maxTsRow]
  cases maxTsRow rs
  · simp
  · dsimp only
    split <;> simp

theorem maxTsRow_eq_none : ∀ {l : List LogRow}, maxTsRow l = none → l = []
  | [], _ => rfl
  | r :: rs, h => absurd h (maxTsRow_cons_ne_none r rs)

theorem maxTsRow_spec :
    ∀ (l : List LogRow) (m : LogRow), maxTsRow l = some m →
      m ∈ l ∧ ∀ x ∈ l, pyStrLe x.timestamp m.timestamp = true
  | [], m, h => by cases h
  | r :: rs, m, h => by
    rw [maxTsRow] at h
    cases hm : maxTsRow rs with
    | none =>
      rw [hm] at h
      injection h with h
      subst h
      have hrs : rs = [] := maxTsRow_eq_none hm
      subst hrs
      refine ⟨List.mem_cons_self _ _, ?_⟩
      intro x hx
      rcases List.mem_cons.mp hx with rfl | hx2
      · exact pyStrLe_refl _
      · cases hx2
    | some m0 =>
      rw [hm] at h
      dsimp only at h
      obtain ⟨hmem, hmax⟩ := maxTsRow_spec rs m0 hm
      by_cases hc : pyStrLe m0.timestamp r.timestamp = true
      · rw [if_pos hc] at h
        injection h with h
        subst h
        refine ⟨List.mem_cons_self _ _, ?_⟩
        intro x hx
        rcases List.mem_cons.mp hx with rfl | hx2
        · exact pyStrLe_refl _
        · exact pyStrLe_trans (hmax x hx2) hc
      · rw [if_neg hc] at h
        injection h with h
        subst h
        refine ⟨List.mem_cons_of_mem _ hmem, ?_⟩
        intro x hx
        rcases List.mem_cons.mp hx with rfl | hx2
        · have hfalse : pyStrLe m0.timestamp x.timestamp = false := by
            cases hb : pyStrLe m0.timestamp x.timestamp
            · rfl
            · exact absurd hb hc
          exact pyStrLe_of_not_ge hfalse
        · exact hmax x hx2

theorem char_lookup (log : List LogRow) (cp : String) (master : List RosterRow)
    (hcp : cp ≠ "") :
    ∀ s ∈ master,
      lookupStatus (get_current_attendance_status (.ok log) cp master).1 s.id =
        some (codeStatus log cp s.id) := by
  intro s hs
  have hmne : master ≠ [] := by
    rintro rfl
    cases hs
  have hexist : ∃ t ∈ master, t.id = s.id := ⟨s, hs, rfl⟩
  unfold get_current_attendance_status
  rw [if_neg (by simp [hcp, hmne])]
  dsimp only
  by_cases hlog : log = []
  · rw [if_pos hlog]
    subst hlog
    dsimp only
    rw [lookupStatus_initStatusFrame master s.id hexist]
    rfl
  · rw [if_neg hlog]
    by_cases hcle : log.filter (fun r => r.checkpoint == cp) = []
    · rw [if_pos hcle]
      dsimp only
      rw [lookupStatus_initStatusFrame master s.id hexist]
      unfold codeStatus
      rw [hcle]
      rfl
    · rw [if_neg hcle]
      dsimp only
      have hpair : List.Pairwise (fun a b : LogRow => a.id ≠ b.id)
          (latestStatusTransform (log.filter fun r => r.checkpoint == cp)) :=
        (dedupByKeyGo_keys (fun r : LogRow => r.id)
          (sortByTimestampDesc (log.filter fun r => r.checkpoint == cp)) []).2
      rw [lookupStatus_foldl_applyRow _ _ _ hpair]
      have hfind : (latestStatusTransform (log.filter fun r => r.checkpoint == cp)).find?
            (fun r => r.id == s.id) =
          (sortByTimestampDesc (log.filter fun r => r.checkpoint == cp)).find?
            (fun r => r.id == s.id) :=
        dedupByKeyGo_find (fun r : LogRow => r.id) _ [] s.id (by simp)
      rw [hfind]
      unfold codeStatus
      cases hf : (sortByTimestampDesc (log.filter fun r => r.checkpoint == cp)).find?
          (fun r => r.id == s.id) with
      | none =>
        dsimp only
        rw [lookupStatus_initStatusFrame master s.id hexist]
      | some r =>
        dsimp only
        rw [lookupStatus_initStatusFrame master s.id hexist]
        unfold sanitizeStatus
        by_cases hg : r.status = "Present" ∨ r.status = "Absent"
        · rw [if_pos hg, if_pos hg]
          rfl
        · rw [if_neg hg, if_neg hg]

theorem codeStatus_eq_spec (log : List LogRow) (cp i : String)
    (hts : ∀ r1 ∈ log, ∀ r2 ∈ log, r1.checkpoint = cp → r2.checkpoint = cp →
      r1.id = r2.id → r1.timestamp = r2.timestamp → r1 = r2) :
    codeStatus log cp i = sanitizeStatus (specDerivedStatus log cp i) := by
  unfold codeStatus specDerivedStatus
  cases hf : (sortByTimestampDesc (log.filter fun r => r.checkpoint == cp)).find?
      (fun r => r.id == i) with
  | none =>
    have hnone := List.find?_eq_none.mp hf
    have hmr : matchingRows log cp i = [] := by
      cases hmr2 : matchingRows log cp i with
      | nil => rfl
      | cons x xs =>
        exfalso
        have hx : x ∈ matchingRows log cp i := by
          rw [hmr2]
          exact List.mem_cons_self _ _
        unfold matchingRows at hx
        obtain ⟨hxl, hxp⟩ := List.mem_filter.mp hx
        obtain ⟨hxcp, hxi⟩ := (Bool.and_eq_true _ _).mp hxp
        have hxin : x ∈ sortByTimestampDesc (log.filter fun r => r.checkpoint == cp) := by
          rw [sortByTimestampDesc, List.mem_insertionSort]
          exact List.mem_filter.mpr ⟨hxl, hxcp⟩
        exact hnone x hxin hxi
    rw [hmr]
    simp [maxTsRow, sanitizeStatus]
  | some r =>
    have hri : r.id = i := by simpa using List.find?_some hf
    have hrmem : r ∈ sortByTimestampDesc (log.filter fun r => r.checkpoint == cp) :=
      List.mem_of_find?_eq_some hf
    have hrcl : r ∈ log.filter fun r => r.checkpoint == cp := by
      rw [sortByTimestampDesc, List.mem_insertionSort] at hrmem
      exact hrmem
    obtain ⟨hrlog, hrcpb⟩ := List.mem_filter.mp hrcl
    have hrcp : r.checkpoint = cp := by simpa using hrcpb
    have hrmatch : r ∈ matchingRows log cp i := by
      unfold matchingRows
      exact List.mem_filter.mpr ⟨hrlog, by simp [hrcp, hri]⟩
    cases hmx : maxTsRow (matchingRows log cp i) with
    | none =>
      exfalso
      rw [maxTsRow_eq_none hmx] at hrmatch
      cases hrmatch
    | some m =>
      obtain ⟨hmmem, hmmax⟩ := maxTsRow_spec _ m hmx
      have hm2 := hmmem
      unfold matchingRows at hm2
      obtain ⟨hmlog, hmp⟩ := List.mem_filter.mp hm2
      obtain ⟨hmcpb, hmib⟩ := (Bool.and_eq_true _ _).mp hmp
      have hmcp : m.checkpoint = cp := by simpa using hmcpb
      have hmi : m.id = i := by simpa using hmib
      have h1 : pyStrLe r.timestamp m.timestamp = true := hmmax r hrmatch
      have hsorted : List.Sorted tsDescRel
          (sortByTimestampDesc (log.filter fun r => r.checkpoint == cp)) :=
        List.sorted_insertionSort tsDescRel _
      have hmin : m ∈ sortByTimestampDesc (log.filter fun r => r.checkpoint == cp) := by
        rw [sortByTimestampDesc, List.mem_insertionSort]
        exact List.mem_filter.mpr ⟨hmlog, by simpa using hmcp⟩
      have h2 : pyStrLe m.timestamp r.timestamp = true :=
        find_sorted_max _ hsorted i r hf m hmin hmi
      have hte : r.timestamp = m.timestamp := pyStrLe_antisymm h1 h2
      have hrm : r = m := hts r hrlog m hmlog hrcp hmcp (hri.trans hmi.symm) hte
      rw [hrm]

theorem insertionSort_append_max :
    ∀ (l : List LogRow) (r : LogRow),
      (∀ x ∈ l, pyStrLe r.timestamp x.timestamp = false) →
      List.insertionSort tsDescRel (l ++ [r]) = r :: List.insertionSort tsDescRel l
  | [], _, _ => rfl
  | a :: l, r, h => by
    have ih := insertionSort_append_max l r (fun x hx => h x (List.mem_cons_of_mem a hx))
    have hra : ¬ tsDescRel a r := by
      unfold tsDescRel
      rw [h a (List.mem_cons_self a l)]
      simp
    rw [List.cons_append]
    simp only [List.insertionSort]
    rw [ih]
    simp only [List.orderedInsert]
    rw [if_neg hra]

theorem map_id_applyRow (st : List StatusRow) (row : LogRow) :
    (applyRow st row).map (fun s => s.id) = st.map (fun s => s.id) := by
  unfold applyRow
  split
  · rw [List.map_map]
    apply List.map_congr_left
    intro s _
    by_cases h : s.id = row.id <;> simp [Function.comp, h]
  · rfl

theorem map_id_foldl_applyRow :
    ∀ (latest : List LogRow) (st : List StatusRow),
      (latest.foldl applyRow st).map (fun s => s.id) = st.map (fun s => s.id)
  | [], _ => rfl
  | r :: rest, st => by
    rw [List.foldl_cons, map_id_foldl_applyRow rest (applyRow st r), map_id_applyRow]

theorem get_current_ids (res : Except String (List LogRow)) (cp : String)
    (master : List RosterRow) :
    ((get_current_attendance_status res cp master).1).map (fun s => s.id) =
      master.map (fun s => s.id) := by
  unfold get_current_attendance_status
  by_cases h0 : cp = "" ∨ master = []
  · rw [if_pos h0]
    unfold absentFrame
    rw [List.map_map]
    rfl
  · rw [if_neg h0]
    cases res with
    | error e =>
      dsimp only
      unfold absentFrame
      rw [List.map_map]
      rfl
    | ok df_log =>
      dsimp only
      by_cases h1 : df_log = []
      · rw [if_pos h1]
        unfold initStatusFrame
        rw [List.map_map]
        rfl
      · rw [if_neg h1]
        by_cases h2 : df_log.filter (fun r => r.checkpoint == cp) = []
        · rw [if_pos h2]
          unfold initStatusFrame
          rw [List.map_map]
          rfl
        · rw [if_neg h2]
          dsimp only
          rw [map_id_foldl_applyRow]
          unfold initStatusFrame
          rw [List.map_map]
          rfl

/-- Example roster with a single student, used by counterexamples. -/
def oneStudentMaster : List RosterRow := [{ id := "S1", name := "Alice" }]

/-- Example log row whose Status is neither `'Present'` nor `'Absent'`. -/
def lateRow : LogRow :=
  { timestamp := "2024-01-01 10:00:00", checkpoint := "CP", id := "S1",
    name := "Alice", status := "Late" }

/-- Example log containing only `lateRow`. -/
def lateLog : List LogRow := [lateRow]

/-- Example roster with three students, used by witnesses. -/
def wMaster : List RosterRow :=
  [{ id := "S1", name := "Alice" }, { id := "S2", name := "Bob" },
   { id := "S3", name := "Carol" }]

/-- Example log with distinct timestamps: S1 checked in then toggled back to
Absent, S2 checked in, S3 never scanned. -/
def wLog : List LogRow :=
  [{ timestamp := "2024-01-01 09:00:00", checkpoint := "CP", id := "S1",
     name := "Alice", status := "Present" },
   { timestamp := "2024-01-01 10:00:00", checkpoint := "CP", id := "S2",
     name := "Bob", status := "Present" },
   { timestamp := "2024-01-01 11:00:00", checkpoint := "CP", id := "S1",
     name := "Alice", status := "Absent" }]

/-- C1 fails as stated: with the single log row `lateRow` (Status `'Late'`,
the row of maximal Timestamp for S1 at checkpoint CP), the derived view
gives S1 the status `'Absent'`, not the row's Status field — line 130 of
`app.py` ignores any latest Status outside `{'Present', 'Absent'}`. -/
theorem c1_counterexample :
    ¬ (∀ s ∈ oneStudentMaster,
        lookupStatus (get_current_attendance_status (.ok lateLog) "CP"
            oneStudentMaster).1 s.id =
          some (specDerivedStatus lateLog "CP" s.id)) := by decide

/-- C1 (amended): for a non-empty checkpoint name and a log in which rows
with the same ID and checkpoint have distinct timestamps, the derived view
assigns to each roster ID the Status of the matching log row of maximal
Timestamp when that Status is `'Present'` or `'Absent'`, and `'Absent'`
otherwise — in particular `'Absent'` when no matching row exists. -/
theorem c1_amended (log : List LogRow) (cp : String) (master : List RosterRow)
    (hcp : cp ≠ "")
    (hts : ∀ r1 ∈ log, ∀ r2 ∈ log, r1.checkpoint = cp → r2.checkpoint = cp →
      r1.id = r2.id → r1.timestamp = r2.timestamp → r1 = r2) :
    ∀ s ∈ master,
      lookupStatus (get_current_attendance_status (.ok log) cp master).1 s.id =
        some (sanitizeStatus (specDerivedStatus log cp s.id)) := by
  intro s hs
  rw [char_lookup log cp master hcp s hs, codeStatus_eq_spec log cp s.id hts]

/-- Witness for C1 (amended) at the concrete log `wLog`. -/
theorem c1_amended_witness :
    (("CP" : String) ≠ "") ∧
    (∀ r1 ∈ wLog, ∀ r2 ∈ wLog, r1.checkpoint = "CP" → r2.checkpoint = "CP" →
      r1.id = r2.id → r1.timestamp = r2.timestamp → r1 = r2) ∧
    (∀ s ∈ wMaster,
      lookupStatus (get_current_attendance_status (.ok wLog) "CP" wMaster).1 s.id =
        some (sanitizeStatus (specDerivedStatus wLog "CP" s.id))) :=
  ⟨by decide, by decide, c1_amended wLog "CP" wMaster (by decide) (by decide)⟩

/-- C2 fails as stated: appending `lateRow` (Status `'Late'`) to the empty
log — its Timestamp strictly dominates vacuously — gives S1 the derived
status `'Absent'`, not the appended row's Status. -/
theorem c2_counterexample :
    (∀ x ∈ ([] : List LogRow), pyStrLe lateRow.timestamp x.timestamp = false) ∧
    lateRow.checkpoint = "CP" ∧ lateRow.id = "S1" ∧
    (oneStudentMaster.map fun s => s.id) = ["S1"] ∧
    lookupStatus (get_current_attendance_status
        (.ok (([] : List LogRow) ++ [lateRow])) "CP" oneStudentMaster).1 "S1" ≠
      some lateRow.status := by decide

/-- C2 (amended): for a non-empty checkpoint name and a log whose same-ID,
same-checkpoint rows have distinct timestamps (pandas' tie order is
unspecified), appending one row at that checkpoint whose Status is
`'Present'` or `'Absent'` and whose Timestamp is strictly greater than every
Timestamp in the log changes the derived view only at the appended ID, which
takes the appended Status; every other roster ID's derived status is
unchanged. -/
theorem c2_amended (log : List LogRow) (cp : String) (master : List RosterRow)
    (r : LogRow) (hcp : cp ≠ "") (hchk : r.checkpoint = cp)
    (hstat : r.status = "Present" ∨ r.status = "Absent")
    (hdom : ∀ x ∈ log, pyStrLe r.timestamp x.timestamp = false)
    (_hts : ∀ r1 ∈ log, ∀ r2 ∈ log, r1.checkpoint = cp → r2.checkpoint = cp →
      r1.id = r2.id → r1.timestamp = r2.timestamp → r1 = r2) :
    (∀ s ∈ master, s.id = r.id →
      lookupStatus (get_current_attendance_status (.ok (log ++ [r])) cp master).1 s.id =
        some r.status) ∧
    (∀ s ∈ master, s.id ≠ r.id →
      lookupStatus (get_current_attendance_status (.ok (log ++ [r])) cp master).1 s.id =
        lookupStatus (get_current_attendance_status (.ok log) cp master).1 s.id) := by
  have hfilter : (log ++ [r]).filter (fun x => x.checkpoint == cp) =
      log.filter (fun x => x.checkpoint == cp) ++ [r] := by
    rw [List.filter_append]
    congr 1
    simp [hchk]
  have hsort : sortByTimestampDesc ((log ++ [r]).filter fun x => x.checkpoint == cp) =
      r :: sortByTimestampDesc (log.filter fun x => x.checkpoint == cp) := by
    rw [hfilter]
    exact insertionSort_append_max _ r fun x hx => hdom x (List.mem_filter.mp hx).1
  constructor
  · intro s hs hsid
    rw [char_lookup (log ++ [r]) cp master hcp s hs]
    unfold codeStatus
    rw [hsort, List.find?_cons_of_pos _ (by simp [hsid])]
    dsimp only
    unfold sanitizeStatus
    rw [if_pos hstat]
  · intro s hs hsid
    rw [char_lookup (log ++ [r]) cp master hcp s hs, char_lookup log cp master hcp s hs]
    have hne : ¬ (r.id == s.id) = true := by
      simp only [beq_iff_eq]
      exact fun h => hsid h.symm
    have hstep : (r :: sortByTimestampDesc (log.filter fun x => x.checkpoint == cp)).find?
          (fun x => x.id == s.id) =
        (sortByTimestampDesc (log.filter fun x => x.checkpoint == cp)).find?
          (fun x => x.id == s.id) :=
      List.find?_cons_of_neg _ hne
    unfold codeStatus
    rw [hsort, hstep]

/-- Row appended by the witness for C2 (amended). -/
def wNewRow : LogRow :=
  { timestamp := "2024-01-01 12:00:00", checkpoint := "CP", id := "S3",
    name := "Carol", status := "Present" }

/-- Witness for C2 (amended): appending a strictly newer Present row for S3
to `wLog`. -/
theorem c2_amended_witness :
    (("CP" : String) ≠ "") ∧ wNewRow.checkpoint = "CP" ∧
    (wNewRow.status = "Present" ∨ wNewRow.status = "Absent") ∧
    (∀ x ∈ wLog, pyStrLe wNewRow.timestamp x.timestamp = false) ∧
    (∀ r1 ∈ wLog, ∀ r2 ∈ wLog, r1.checkpoint = "CP" → r2.checkpoint = "CP" →
      r1.id = r2.id → r1.timestamp = r2.timestamp → r1 = r2) ∧
    ((∀ s ∈ wMaster, s.id = wNewRow.id →
      lookupStatus (get_current_attendance_status (.ok (wLog ++ [wNewRow])) "CP"
          wMaster).1 s.id = some wNewRow.status) ∧
    (∀ s ∈ wMaster, s.id ≠ wNewRow.id →
      lookupStatus (get_current_attendance_status (.ok (wLog ++ [wNewRow])) "CP"
          wMaster).1 s.id =
        lookupStatus (get_current_attendance_status (.ok wLog) "CP" wMaster).1 s.id)) :=
  ⟨by decide, by decide, by decide, by decide, by decide,
    c2_amended wLog "CP" wMaster wNewRow (by decide) (by decide) (by decide) (by decide)
      (by decide)⟩

/-- C3: a successful `save_attendance_entry` for a student whose ID is bound
to `name` in the session roster dictionary appends exactly the one row
`(timestamp, checkpoint, ID, name, status)` to the log — every existing row
is preserved unchanged, in place — and returns `True` with the student's
roster name. -/
theorem c3_save_appends_one_row (log : List LogRow)
    (id_to_name : List (String × String)) (cp ts sid st name : String)
    (hname : ((id_to_name.find? fun p => p.1 == sid).map fun p => p.2) = some name) :
    save_attendance_entry true log id_to_name cp ts sid st =
      { log := log ++ [{ timestamp := ts, checkpoint := cp, id := sid,
                         name := name, status := st }],
        success := true, name := name, errorShown := false } := by
  simp [save_attendance_entry, hname]

/-- Witness for C3 at a concrete log and roster dictionary. -/
theorem c3_witness :
    ((([("S1", "Alice"), ("S2", "Bob")] :
        List (String × String)).find? fun p => p.1 == "S2").map fun p => p.2) =
      some "Bob" ∧
    save_attendance_entry true lateLog [("S1", "Alice"), ("S2", "Bob")] "CP"
        "2024-01-01 12:00:00" "S2" "Present" =
      { log := lateLog ++ [{ timestamp := "2024-01-01 12:00:00", checkpoint := "CP",
                             id := "S2", name := "Bob", status := "Present" }],
        success := true, name := "Bob", errorShown := false } :=
  ⟨by decide,
    c3_save_appends_one_row lateLog [("S1", "Alice"), ("S2", "Bob")] "CP"
      "2024-01-01 12:00:00" "S2" "Present" "Bob" (by decide)⟩

/-- C4 fails as stated: when reading the log raises, the bare `except` of
`get_active_checkpoint_name` (lines 160-162) surfaces no user-facing
message (second component `false`); and the error sentinel of
`get_current_attendance_status` is a non-empty all-`'Absent'` frame, not
one of the sentinels the claim lists. -/
theorem c4_counterexample :
    (get_active_checkpoint_name (Except.error "network failure")).2 = false ∧
    (get_current_attendance_status (Except.error "network failure") "CP"
      oneStudentMaster).1 = absentFrame oneStudentMaster ∧
    absentFrame oneStudentMaster ≠ [] := by decide

/-- C4 (amended): every error raised inside a data-loading or data-saving
operation is caught at its call site and the operation returns a fixed
fallback with no retry — `None` for connecting, an empty roster for loading
the roster, an all-`'Absent'` status frame for reading the log, the empty
string for reading the active checkpoint, and `False` for writing the
checkpoint or appending an entry; every operation surfaces a user-facing
error message except `get_active_checkpoint_name`, which fails silently. -/
theorem c4_amended (e : String) (cp : String) (master : List RosterRow)
    (log : List LogRow) (id_to_name : List (String × String))
    (ts name sid st : String) (c : Except String Unit)
    (hcp : cp ≠ "") (hm : master ≠ []) :
    get_gspread_client true (.error e) = (none, true) ∧
    get_gspread_client false c = (none, true) ∧
    load_master_students (.error e) = ([], true) ∧
    get_current_attendance_status (.error e) cp master = (absentFrame master, true) ∧
    get_active_checkpoint_name (.error e) = ("", false) ∧
    set_active_checkpoint_name false log ts name = (log, false, true) ∧
    save_attendance_entry false log id_to_name cp ts sid st =
      { log := log, success := false, name := "Unknown Student",
        errorShown := true } := by
  refine ⟨rfl, rfl, rfl, ?_, rfl, rfl, rfl⟩
  unfold get_current_attendance_status
  rw [if_neg (by simp [hcp, hm])]

/-- Witness for C4 (amended) at concrete arguments. -/
theorem c4_amended_witness :
    (("CP" : String) ≠ "") ∧ (oneStudentMaster ≠ []) ∧
    (get_gspread_client true (.error "boom") = (none, true) ∧
     get_gspread_client false (.ok ()) = (none, true) ∧
     load_master_students (.error "boom") = ([], true) ∧
     get_current_attendance_status (.error "boom") "CP" oneStudentMaster =
       (absentFrame oneStudentMaster, true) ∧
     get_active_checkpoint_name (.error "boom") = ("", false) ∧
     set_active_checkpoint_name false lateLog "2024-01-01 12:00:00" "CP" =
       (lateLog, false, true) ∧
     save_attendance_entry false lateLog [] "CP" "2024-01-01 12:00:00" "S1"
         "Present" =
       { log := lateLog, success := false, name := "Unknown Student",
         errorShown := true }) :=
  ⟨by decide, by decide,
    c4_amended "boom" "CP" oneStudentMaster lateLog [] "2024-01-01 12:00:00" "CP"
      "S1" "Present" (.ok ()) (by decide) (by decide)⟩

/-- C5: the group-by-key-take-latest transformation — sort by Timestamp
descending, keep the first row per ID — is idempotent on every log table
with pairwise-distinct timestamps.  The distinctness guard makes the
descending order, and hence the exact output table, independent of the sort
implementation; pandas' default quicksort gives no tie-order guarantee. -/
theorem c5_latest_transform_idempotent (rows : List LogRow)
    (_hts : ∀ r1 ∈ rows, ∀ r2 ∈ rows, r1.timestamp = r2.timestamp → r1 = r2) :
    latestStatusTransform (latestStatusTransform rows) = latestStatusTransform rows := by
  have hsub : List.Sublist (latestStatusTransform rows) (sortByTimestampDesc rows) :=
    dedupByKeyGo_sublist (fun r : LogRow => r.id) (sortByTimestampDesc rows) []
  have hsorted : List.Sorted tsDescRel (latestStatusTransform rows) :=
    List.Pairwise.sublist hsub (List.sorted_insertionSort tsDescRel rows)
  have hpair : List.Pairwise (fun a b : LogRow => a.id ≠ b.id)
      (latestStatusTransform rows) :=
    (dedupByKeyGo_keys (fun r : LogRow => r.id) (sortByTimestampDesc rows) []).2
  calc latestStatusTransform (latestStatusTransform rows)
      = dropDupById (sortByTimestampDesc (latestStatusTransform rows)) := rfl
    _ = dropDupById (latestStatusTransform rows) := by
        rw [show sortByTimestampDesc (latestStatusTransform rows) =
            latestStatusTransform rows from List.Sorted.insertionSort_eq hsorted]
    _ = latestStatusTransform rows :=
        dedupByKeyGo_eq_self (fun r : LogRow => r.id) (latestStatusTransform rows) []
          hpair (by intro x hx; simp)

/-- Witness for C5 at the concrete log `wLog`, whose three timestamps are
pairwise distinct. -/
theorem c5_witness :
    (∀ r1 ∈ wLog, ∀ r2 ∈ wLog, r1.timestamp = r2.timestamp → r1 = r2) ∧
    latestStatusTransform (latestStatusTransform wLog) = latestStatusTransform wLog :=
  ⟨by decide, c5_latest_transform_idempotent wLog (by decide)⟩

theorem length_filter_id_eq_one {l : List StatusRow} {i : String}
    (hnd : (l.map fun t => t.id).Nodup) (hm : i ∈ l.map fun t => t.id) :
    (l.filter fun t => t.id == i).length = 1 := by
  induction l with
  | nil => cases hm
  | cons a l ih =>
    rw [List.map_cons] at hnd hm
    obtain ⟨hna, hnd2⟩ := List.nodup_cons.mp hnd
    by_cases hai : a.id = i
    · rw [List.filter_cons_of_pos (by simpa using hai)]
      have hzero : (l.filter fun t => t.id == i).length = 0 := by
        rw [List.length_eq_zero, List.filter_eq_nil_iff]
        intro t ht hti
        have h2 : t.id = i := by simpa using hti
        apply hna
        rw [hai, ← h2]
        exact List.mem_map_of_mem _ ht
      simp [hzero]
    · rcases List.mem_cons.mp hm with h | h
      · exact absurd h.symm hai
      · rw [List.filter_cons_of_neg (by simpa using hai)]
        exact ih hnd2 h

/-- C6: for a roster with unique IDs and a log whose same-ID, same-checkpoint
rows have distinct timestamps, the derived view has exactly the roster's IDs
(one status row per roster ID, no other rows), and log rows whose ID is not
in the roster never change any roster ID's derived status: restricting the
log to roster IDs yields the same status for every student. -/
theorem c6_view_rows (log : List LogRow) (cp : String) (master : List RosterRow)
    (_hne : master ≠ [])
    (hnodup : (master.map fun s => s.id).Nodup)
    (hts : ∀ r1 ∈ log, ∀ r2 ∈ log, r1.checkpoint = cp → r2.checkpoint = cp →
      r1.id = r2.id → r1.timestamp = r2.timestamp → r1 = r2) :
    ((get_current_attendance_status (.ok log) cp master).1).map (fun t => t.id) =
      master.map (fun s => s.id) ∧
    (∀ s ∈ master,
      (((get_current_attendance_status (.ok log) cp master).1).filter
        fun t => t.id == s.id).length = 1) ∧
    (∀ s ∈ master,
      lookupStatus (get_current_attendance_status
          (.ok (log.filter fun r => master.any fun t => t.id == r.id)) cp master).1 s.id =
        lookupStatus (get_current_attendance_status (.ok log) cp master).1 s.id) := by
  have hids := get_current_ids (.ok log) cp master
  refine ⟨hids, ?_, ?_⟩
  · intro s hs
    apply length_filter_id_eq_one
    · rw [hids]
      exact hnodup
    · rw [hids]
      exact List.mem_map_of_mem _ hs
  · intro s hs
    by_cases hcp : cp = ""
    · unfold get_current_attendance_status
      rw [if_pos (Or.inl hcp), if_pos (Or.inl hcp)]
    · have htsf : ∀ r1 ∈ (log.filter fun r => master.any fun t => t.id == r.id),
          ∀ r2 ∈ (log.filter fun r => master.any fun t => t.id == r.id),
          r1.checkpoint = cp → r2.checkpoint = cp →
          r1.id = r2.id → r1.timestamp = r2.timestamp → r1 = r2 :=
        fun r1 h1 r2 h2 => hts r1 (List.mem_filter.mp h1).1 r2 (List.mem_filter.mp h2).1
      rw [char_lookup _ cp master hcp s hs, char_lookup log cp master hcp s hs,
        codeStatus_eq_spec _ cp s.id htsf, codeStatus_eq_spec log cp s.id hts]
      have hmr : matchingRows (log.filter fun r => master.any fun t => t.id == r.id)
          cp s.id = matchingRows log cp s.id := by
        unfold matchingRows
        rw [List.filter_comm]
        refine List.filter_eq_self.mpr ?_
        intro x hx
        obtain ⟨hxlog, hxq⟩ := List.mem_filter.mp hx
        rcases (Bool.and_eq_true _ _).mp hxq with ⟨_, hid⟩
        have ha2 : x.id = s.id := by simpa using hid
        refine List.any_eq_true.mpr ⟨s, hs, ?_⟩
        simp [ha2]
      unfold specDerivedStatus
      rw [hmr]

/-- Witness for C6 at the concrete log `wLog` and roster `wMaster`,
discharging the non-empty-roster, unique-ID and distinct-timestamp
hypotheses concretely. -/
theorem c6_witness :
    (wMaster ≠ []) ∧ ((wMaster.map fun s => s.id).Nodup) ∧
    (∀ r1 ∈ wLog, ∀ r2 ∈ wLog, r1.checkpoint = "CP" → r2.checkpoint = "CP" →
      r1.id = r2.id → r1.timestamp = r2.timestamp → r1 = r2) ∧
    (((get_current_attendance_status (.ok wLog) "CP" wMaster).1).map (fun t => t.id) =
      wMaster.map (fun s => s.id) ∧
    (∀ s ∈ wMaster,
      (((get_current_attendance_status (.ok wLog) "CP" wMaster).1).filter
        fun t => t.id == s.id).length = 1) ∧
    (∀ s ∈ wMaster,
      lookupStatus (get_current_attendance_status
          (.ok (wLog.filter fun r => wMaster.any fun t => t.id == r.id)) "CP"
          wMaster).1 s.id =
        lookupStatus (get_current_attendance_status (.ok wLog) "CP" wMaster).1 s.id)) :=
  ⟨by decide, by decide, by decide,
    c6_view_rows wLog "CP" wMaster (by decide) (by decide) (by decide)⟩

/-- C7: for a worksheet with `ID` and `Name` columns, the loaded roster has
unique IDs; every roster row is the string coercion of some raw row; and for
each ID the roster keeps exactly the first occurrence among the stringified
raw rows. -/
theorem c7_load_master_students (records : List RawStudent) :
    (((load_master_students (.ok (some records))).1.map fun s => s.id).Nodup) ∧
    (∀ s ∈ (load_master_students (.ok (some records))).1, ∃ w ∈ records,
      s.id = w.id.toStr ∧ s.name = w.name.toStr) ∧
    (∀ i : String, (load_master_students (.ok (some records))).1.find?
        (fun s => s.id == i) =
      (records.map fun w => RosterRow.mk w.id.toStr w.name.toStr).find?
        (fun s => s.id == i)) := by
  refine ⟨?_, ?_, ?_⟩
  · show ((dedupByKey (fun s : RosterRow => s.id)
        (records.map fun w => RosterRow.mk w.id.toStr w.name.toStr)).map
        fun s => s.id).Nodup
    have hp : List.Pairwise (fun a b : RosterRow => a.id ≠ b.id)
        (dedupByKeyGo (fun s : RosterRow => s.id) []
          (records.map fun w => RosterRow.mk w.id.toStr w.name.toStr)) :=
      (dedupByKeyGo_keys (fun s : RosterRow => s.id)
        (records.map fun w => RosterRow.mk w.id.toStr w.name.toStr) []).2
    exact List.pairwise_map.mpr hp
  · intro s hs
    have hmem : s ∈ records.map fun w => RosterRow.mk w.id.toStr w.name.toStr :=
      (dedupByKeyGo_sublist (fun s : RosterRow => s.id)
        (records.map fun w => RosterRow.mk w.id.toStr w.name.toStr) []).subset hs
    obtain ⟨w, hw, hws⟩ := List.mem_map.mp hmem
    exact ⟨w, hw, by rw [← hws], by rw [← hws]⟩
  · intro i
    exact dedupByKeyGo_find (fun s : RosterRow => s.id)
      (records.map fun w => RosterRow.mk w.id.toStr w.name.toStr) [] i (by simp)

/-- C8: in all three check-in paths, an ID whose current derived status is
already `'Present'` leads to the already-checked-in warning, so
`save_attendance_entry` is not called and no row is appended. -/
theorem c8_already_present_warns (master : List RosterRow)
    (status_df : List StatusRow) (student_id : String)
    (htrim : pyStrip student_id = student_id)
    (hmem : (master.any fun s => s.id == student_id) = true)
    (hstat : lookupStatus status_df student_id = some "Present") :
    process_uploaded_image_decision master status_df student_id =
        CheckInAction.warnAlreadyCheckedIn ∧
    scan_buffer_decision master status_df student_id =
        CheckInAction.warnAlreadyCheckedIn ∧
    manual_entry_decision master status_df student_id =
        CheckInAction.warnAlreadyCheckedIn := by
  have hcur : ((status_df.find? fun s => s.id == student_id).map
      fun s => s.status).getD "Absent" = "Present" := by
    unfold lookupStatus at hstat
    rw [hstat]
    rfl
  refine ⟨?_, ?_, ?_⟩
  · simp [process_uploaded_image_decision, htrim, hmem, hcur]
  · simp [scan_buffer_decision, hmem, hcur]
  · simp [manual_entry_decision, htrim, hmem, hcur]

/-- Status frame used by the witnesses of C8 and C9. -/
def wStatusFrame : List StatusRow :=
  [{ id := "S1", name := some "Alice", status := "Present" }]

/-- Witness for C8 at a concrete roster and frame. -/
theorem c8_witness :
    pyStrip "S1" = "S1" ∧
    (oneStudentMaster.any fun s => s.id == "S1") = true ∧
    lookupStatus wStatusFrame "S1" = some "Present" ∧
    (process_uploaded_image_decision oneStudentMaster wStatusFrame "S1" =
        CheckInAction.warnAlreadyCheckedIn ∧
    scan_buffer_decision oneStudentMaster wStatusFrame "S1" =
        CheckInAction.warnAlreadyCheckedIn ∧
    manual_entry_decision oneStudentMaster wStatusFrame "S1" =
        CheckInAction.warnAlreadyCheckedIn) :=
  ⟨by decide, by decide, by decide,
    c8_already_present_warns oneStudentMaster wStatusFrame "S1" (by decide)
      (by decide) (by decide)⟩

/-- C9: in all three check-in paths, an ID that does not occur in the
roster leads to the invalid-ID error, so `save_attendance_entry` is not
called and the log is unchanged. -/
theorem c9_invalid_id_rejected (master : List RosterRow)
    (status_df : List StatusRow) (student_id : String)
    (htrim : pyStrip student_id = student_id)
    (hmem : (master.any fun s => s.id == student_id) = false) :
    process_uploaded_image_decision master status_df student_id =
        CheckInAction.errorInvalidId ∧
    scan_buffer_decision master status_df student_id =
        CheckInAction.errorInvalidId ∧
    manual_entry_decision master status_df student_id =
        CheckInAction.errorInvalidId := by
  refine ⟨?_, ?_, ?_⟩
  · simp [process_uploaded_image_decision, htrim, hmem]
  · simp [scan_buffer_decision, hmem]
  · simp [manual_entry_decision, htrim, hmem]

/-- Witness for C9 with an ID outside the roster. -/
theorem c9_witness :
    pyStrip "S9" = "S9" ∧
    (oneStudentMaster.any fun s => s.id == "S9") = false ∧
    (process_uploaded_image_decision oneStudentMaster wStatusFrame "S9" =
        CheckInAction.errorInvalidId ∧
    scan_buffer_decision oneStudentMaster wStatusFrame "S9" =
        CheckInAction.errorInvalidId ∧
    manual_entry_decision oneStudentMaster wStatusFrame "S9" =
        CheckInAction.errorInvalidId) :=
  ⟨by decide, by decide,
    c9_invalid_id_rejected oneStudentMaster wStatusFrame "S9" (by decide) (by decide)⟩

/-- C10: with distinct timestamps on the `CONFIG_STATE` rows,
`get_active_checkpoint_name` returns the Checkpoint field of the
`CONFIG_STATE` row of maximal Timestamp — the empty string when no such row
exists or the read raises — and a successful `set_active_checkpoint_name`
appends exactly one `CONFIG_STATE` row carrying the given name. -/
theorem c10_active_checkpoint (log : List LogRow) (e ts name : String)
    (hts : ∀ r1 ∈ log, ∀ r2 ∈ log, r1.id = "CONFIG_STATE" → r2.id = "CONFIG_STATE" →
      r1.timestamp = r2.timestamp → r1 = r2) :
    get_active_checkpoint_name (.ok log) =
      (((maxTsRow (log.filter fun r => r.id == "CONFIG_STATE")).map
        fun r => r.checkpoint).getD "", false) ∧
    get_active_checkpoint_name (.error e) = ("", false) ∧
    set_active_checkpoint_name true log ts name =
      (log ++ [{ timestamp := ts, checkpoint := name, id := "CONFIG_STATE",
                 name := "N/A", status := "N/A" }], true, false) := by
  refine ⟨?_, rfl, rfl⟩
  unfold get_active_checkpoint_name
  dsimp only
  by_cases hcfg : log.filter (fun r => r.id == "CONFIG_STATE") = []
  · rw [if_pos hcfg, hcfg]
    rfl
  · rw [if_neg hcfg]
    cases hsr : sortByTimestampDesc (log.filter fun r => r.id == "CONFIG_STATE") with
    | nil =>
      exfalso
      apply hcfg
      have hlen := List.length_insertionSort tsDescRel
        (log.filter fun r => r.id == "CONFIG_STATE")
      rw [show List.insertionSort tsDescRel (log.filter fun r => r.id == "CONFIG_STATE")
          = [] from hsr] at hlen
      exact List.eq_nil_of_length_eq_zero hlen.symm
    | cons h t =>
      have hhmem : h ∈ log.filter fun r => r.id == "CONFIG_STATE" := by
        have : h ∈ sortByTimestampDesc (log.filter fun r => r.id == "CONFIG_STATE") := by
          rw [hsr]
          exact List.mem_cons_self _ _
        rw [sortByTimestampDesc, List.mem_insertionSort] at this
        exact this
      have hsorted := List.sorted_insertionSort tsDescRel
        (log.filter fun r => r.id == "CONFIG_STATE")
      rw [show List.insertionSort tsDescRel (log.filter fun r => r.id == "CONFIG_STATE")
          = h :: t from hsr] at hsorted
      obtain ⟨hge, _⟩ := List.sorted_cons.mp hsorted
      cases hmx : maxTsRow (log.filter fun r => r.id == "CONFIG_STATE") with
      | none =>
        exact absurd (maxTsRow_eq_none hmx) hcfg
      | some m =>
        obtain ⟨hmmem, hmmax⟩ := maxTsRow_spec _ m hmx
        have h1 : pyStrLe h.timestamp m.timestamp = true := hmmax h hhmem
        have hmsort : m ∈ sortByTimestampDesc
            (log.filter fun r => r.id == "CONFIG_STATE") := by
          rw [sortByTimestampDesc, List.mem_insertionSort]
          exact hmmem
        rw [hsr] at hmsort
        have h2 : pyStrLe m.timestamp h.timestamp = true := by
          rcases List.mem_cons.mp hmsort with rfl | hm2
          · exact pyStrLe_refl _
          · exact hge m hm2
        have hte : h.timestamp = m.timestamp := pyStrLe_antisymm h1 h2
        obtain ⟨hhlog, hhid⟩ := List.mem_filter.mp hhmem
        obtain ⟨hmlog, hmid⟩ := List.mem_filter.mp hmmem
        have hhm : h = m := hts h hhlog m hmlog (by simpa using hhid)
          (by simpa using hmid) hte
        simp [hhm]

/-- Log used by the witness for C10: two `CONFIG_STATE` rows and one scan. -/
def wConfigLog : List LogRow :=
  [{ timestamp := "2024-01-01 08:00:00", checkpoint := "Morning Bus",
     id := "CONFIG_STATE", name := "N/A", status := "N/A" },
   { timestamp := "2024-01-01 09:30:00", checkpoint := "Temple Visit",
     id := "CONFIG_STATE", name := "N/A", status := "N/A" },
   { timestamp := "2024-01-01 09:45:00", checkpoint := "Temple Visit",
     id := "S1", name := "Alice", status := "Present" }]

/-- Witness for C10 at the concrete log `wConfigLog`. -/
theorem c10_witness :
    (∀ r1 ∈ wConfigLog, ∀ r2 ∈ wConfigLog, r1.id = "CONFIG_STATE" →
      r2.id = "CONFIG_STATE" → r1.timestamp = r2.timestamp → r1 = r2) ∧
    (get_active_checkpoint_name (.ok wConfigLog) =
      (((maxTsRow (wConfigLog.filter fun r => r.id == "CONFIG_STATE")).map
        fun r => r.checkpoint).getD "", false) ∧
    get_active_checkpoint_name (.error "boom") = ("", false) ∧
    set_active_checkpoint_name true wConfigLog "2024-01-01 10:00:00" "Lunch" =
      (wConfigLog ++ [{ timestamp := "2024-01-01 10:00:00", checkpoint := "Lunch",
                        id := "CONFIG_STATE", name := "N/A", status := "N/A" }],
        true, false)) :=
  ⟨by decide,
    c10_active_checkpoint wConfigLog "boom" "2024-01-01 10:00:00" "Lunch" (by decide)⟩

/-- Raw `Students` rows used by the witness for C7: a numeric ID cell, a
textual duplicate of it after coercion, and a numeric Name cell. -/
def wRecords : List RawStudent :=
  [{ id := .num 7, name := .text "Alice" },
   { id := .text "7", name := .text "Bob" },
   { id := .text "S2", name := .num 3 }]

/-- Witness for C7 at the concrete raw rows `wRecords`. -/
theorem c7_witness :
    (((load_master_students (.ok (some wRecords))).1.map fun s => s.id).Nodup) ∧
    (∀ s ∈ (load_master_students (.ok (some wRecords))).1, ∃ w ∈ wRecords,
      s.id = w.id.toStr ∧ s.name = w.name.toStr) ∧
    (∀ i : String, (load_master_students (.ok (some wRecords))).1.find?
        (fun s => s.id == i) =
      (wRecords.map fun w => RosterRow.mk w.id.toStr w.name.toStr).find?
        (fun s => s.id == i)) :=
  c7_load_master_students wRecords
